import Mathlib

/-!
Verification of the YIP tokenizer (yip.c) against its specification.

The definitions below are a shallow embedding of the C source:
byte buffers become `List Nat` (each element a byte value < 256), pointers
into a buffer become natural-number offsets, C `int`/`long` values become
`Int`, and the parser object becomes an explicit record that the operations
transform.  Stacks (`CODE_STACK`, `TOKEN_STACK`, `FRAME_STACK`) are lists
whose last element is the top of the stack, so `depth_of` is `List.length`.
-/

namespace Yip

/-- Special values from yip.c. -/
def INVALID_CODE : Int := -1000

/-- NO_CODE special value from yip.c. -/
def NO_CODE : Int := -2000

/-- The C `EOF` constant used by yip.c as the end-of-input character code. -/
def EOF_CODE : Int := -1

/-- YIP_CODE constants (yip.h): each code is fixed as a printable ASCII
character; `YIP_DONE` is the NUL character. -/
def YIP_BOM : Int := 85

/-- YIP_DONE token code (NUL). -/
def YIP_DONE : Int := 0

/-- YIP_ERROR token code (the exclamation mark). -/
def YIP_ERROR : Int := 33

/-- YIP_UNPARSED token code (the dash). -/
def YIP_UNPARSED : Int := 45

/-- YIP_BEGIN_SCALAR token code (capital S). -/
def YIP_BEGIN_SCALAR : Int := 83

/-- The five UTF encodings of `YIP_ENCODING` (yip.h). -/
inductive YIP_ENCODING where
  | utf8
  | utf16le
  | utf16be
  | utf32le
  | utf32be
deriving DecidableEq, Repr

/-- `encoding_names` from yip.c: the canonical name of each encoding. -/
def encoding_names : YIP_ENCODING → String
  | .utf8 => "UTF-8"
  | .utf16le => "UTF-16LE"
  | .utf16be => "UTF-16BE"
  | .utf32le => "UTF-32LE"
  | .utf32be => "UTF-32BE"

/-- Bytes of a string (all ASCII in this development). -/
def stringBytes (s : String) : List Nat := s.toList.map Char.toNat

/-- `detect_encoding` from yip.c.  The first four bytes of the source are
examined; a missing byte is replaced by the 0xAA sentinel (the C code reads
`size_of(source->buffer) > i ? begin[i] : 0xAA` after a `more(4)` call,
which for a buffered source never fails and never adds bytes). -/
def detect_encoding (bytes : List Nat) : YIP_ENCODING :=
  let byte_0 := bytes.getD 0 0xAA
  let byte_1 := bytes.getD 1 0xAA
  let byte_2 := bytes.getD 2 0xAA
  let byte_3 := bytes.getD 3 0xAA
  let byte_01 := (byte_0 <<< 8) ||| byte_1
  let byte_012 := (byte_0 <<< 16) ||| (byte_1 <<< 8) ||| byte_2
  let byte_123 := (byte_1 <<< 16) ||| (byte_2 <<< 8) ||| byte_3
  let byte_0123 := (byte_0 <<< 24) ||| (byte_1 <<< 16) ||| (byte_2 <<< 8) ||| byte_3
  if byte_0123 = 0x0000FEFF then .utf32be
  else if byte_012 = 0x000000 then .utf32be
  else if byte_0123 = 0xFFFE0000 then .utf32le
  else if byte_123 = 0x000000 then .utf32le
  else if byte_01 = 0xFEFF then .utf16be
  else if byte_0 = 0x00 then .utf16be
  else if byte_01 = 0xFFFE then .utf16le
  else if byte_1 = 0x00 then .utf16be
  else if byte_012 = 0xEFBBBF then .utf8
  else .utf8

/-- `next_byte` from yip.c: consume the next byte from the range
`[pos, bytes.length)`; returns -1 without advancing when the range is
empty, else the byte and the advanced cursor. -/
def next_byte (bytes : List Nat) (pos : Nat) : Int × Nat :=
  if bytes.length ≤ pos then (-1, pos)
  else ((bytes.getD pos 0 : Int), pos + 1)

/-- The continuation-byte loop of `yip_decode_utf8` (the `while
(continuations-- > 0)` loop).  `n` is the number of continuation bytes
still expected, `code` the bits accumulated so far.  The loop returns
`INVALID_CODE` without consuming when the input is exhausted, and after
consuming the offending byte when it is not a 10xxxxxx continuation. -/
def utf8_continuations : Nat → Nat → List Nat → Nat → Int × Nat
  | 0, code, _, pos => ((code : Int), pos)
  | n + 1, code, bytes, pos =>
    if bytes.length ≤ pos then (INVALID_CODE, pos)
    else
      let next := bytes.getD pos 0
      if ¬(next &&& 0xC0 = 0x80) then (INVALID_CODE, pos + 1)
      else utf8_continuations n ((code <<< 6) ||| (next &&& 0x3F)) bytes (pos + 1)

/-- `yip_decode_utf8` from yip.c. -/
def yip_decode_utf8 (bytes : List Nat) (pos : Nat) : Int × Nat :=
  match next_byte bytes pos with
  | (code, pos0) =>
    if code < 0 then (INVALID_CODE, pos0)
    else
      let c := code.toNat
      if c &&& 0x80 = 0 then ((c : Int), pos0)
      else if c &&& 0xE0 = 0xC0 then utf8_continuations 1 (c &&& 0x1F) bytes pos0
      else if c &&& 0xF0 = 0xE0 then utf8_continuations 2 (c &&& 0xF) bytes pos0
      else if c &&& 0xF8 = 0xF0 then utf8_continuations 3 (c &&& 0x7) bytes pos0
      else if c &&& 0xFC = 0xF8 then utf8_continuations 4 (c &&& 0x3) bytes pos0
      else if c &&& 0xFE = 0xFC then utf8_continuations 5 (c &&& 0x1) bytes pos0
      else (INVALID_CODE, pos0)

/-- `yip_decode_utf16le` from yip.c. -/
def yip_decode_utf16le (bytes : List Nat) (pos : Nat) : Int × Nat :=
  match next_byte bytes pos with
  | (c0, p0) =>
    if c0 < 0 then (INVALID_CODE, p0)
    else match next_byte bytes p0 with
    | (c1, p1) =>
      if c1 < 0 then (INVALID_CODE, p1)
      else
        let code01 := c0.toNat ||| (c1.toNat <<< 8)
        if 0xDC00 ≤ code01 ∧ code01 < 0xE000 then (INVALID_CODE, p1)
        else if code01 < 0xD800 ∨ 0xDC00 ≤ code01 then ((code01 : Int), p1)
        else match next_byte bytes p1 with
        | (c2, p2) =>
          if c2 < 0 then (INVALID_CODE, p2)
          else match next_byte bytes p2 with
          | (c3, p3) =>
            if c3 < 0 then (INVALID_CODE, p3)
            else
              let code23 := c2.toNat ||| (c3.toNat <<< 8)
              if code23 < 0xDC00 ∨ 0xE000 ≤ code23 then (INVALID_CODE, p3)
              else ((((code01 <<< 10) + code23 + 0x10000 : Nat) : Int)
                      - ((0xD800 <<< 10 : Nat) : Int) - 0xDC00, p3)

/-- `yip_decode_utf16be` from yip.c. -/
def yip_decode_utf16be (bytes : List Nat) (pos : Nat) : Int × Nat :=
  match next_byte bytes pos with
  | (c0, p0) =>
    if c0 < 0 then (INVALID_CODE, p0)
    else match next_byte bytes p0 with
    | (c1, p1) =>
      if c1 < 0 then (INVALID_CODE, p1)
      else
        let code01 := (c0.toNat <<< 8) ||| c1.toNat
        if 0xDC00 ≤ code01 ∧ code01 < 0xE000 then (INVALID_CODE, p1)
        else if code01 < 0xD800 ∨ 0xDC00 ≤ code01 then ((code01 : Int), p1)
        else match next_byte bytes p1 with
        | (c2, p2) =>
          if c2 < 0 then (INVALID_CODE, p2)
          else match next_byte bytes p2 with
          | (c3, p3) =>
            if c3 < 0 then (INVALID_CODE, p3)
            else
              let code23 := (c2.toNat <<< 8) ||| c3.toNat
              if code23 < 0xDC00 ∨ 0xE000 ≤ code23 then (INVALID_CODE, p3)
              else ((((code01 <<< 10) + code23 + 0x10000 : Nat) : Int)
                      - ((0xD800 <<< 10 : Nat) : Int) - 0xDC00, p3)

/-- `yip_decode_utf32le` from yip.c. -/
def yip_decode_utf32le (bytes : List Nat) (pos : Nat) : Int × Nat :=
  match next_byte bytes pos with
  | (c0, p0) =>
    if c0 < 0 then (INVALID_CODE, p0)
    else match next_byte bytes p0 with
    | (c1, p1) =>
      if c1 < 0 then (INVALID_CODE, p1)
      else match next_byte bytes p1 with
      | (c2, p2) =>
        if c2 < 0 then (INVALID_CODE, p2)
        else match next_byte bytes p2 with
        | (c3, p3) =>
          if c3 < 0 then (INVALID_CODE, p3)
          else ((c0.toNat ||| (c1.toNat <<< 8) ||| (c2.toNat <<< 16) ||| (c3.toNat <<< 24) : Nat), p3)

/-- `yip_decode_utf32be` from yip.c. -/
def yip_decode_utf32be (bytes : List Nat) (pos : Nat) : Int × Nat :=
  match next_byte bytes pos with
  | (c0, p0) =>
    if c0 < 0 then (INVALID_CODE, p0)
    else match next_byte bytes p0 with
    | (c1, p1) =>
      if c1 < 0 then (INVALID_CODE, p1)
      else match next_byte bytes p1 with
      | (c2, p2) =>
        if c2 < 0 then (INVALID_CODE, p2)
        else match next_byte bytes p2 with
        | (c3, p3) =>
          if c3 < 0 then (INVALID_CODE, p3)
          else (((c0.toNat <<< 24) ||| (c1.toNat <<< 16) ||| (c2.toNat <<< 8) ||| c3.toNat : Nat), p3)

/-- `yip_decode` from yip.c: dispatch on the encoding. -/
def yip_decode (encoding : YIP_ENCODING) (bytes : List Nat) (pos : Nat) : Int × Nat :=
  match encoding with
  | .utf8 => yip_decode_utf8 bytes pos
  | .utf16le => yip_decode_utf16le bytes pos
  | .utf16be => yip_decode_utf16be bytes pos
  | .utf32le => yip_decode_utf32le bytes pos
  | .utf32be => yip_decode_utf32be bytes pos

/-- A single-character string holding the apostrophe. -/
def squote : String := String.singleton (Char.ofNat 39)

/-- A single-character string holding the double quote. -/
def dquote : String := String.singleton (Char.ofNat 34)

/-- Lowercase hexadecimal rendering of `n`, zero-padded on the left to at
least `width` digits (C `%0*x`). -/
def pad_hex (width n : Nat) : String :=
  let ds := Nat.toDigits 16 n
  String.mk (List.replicate (width - ds.length) (Char.ofNat 48) ++ ds)

/-- The message selection of `unexpected` from yip.c.  The argument is the
current character code (`Curr->code`).  A negative code other than the
two sentinels falls into the `%02x` branch, where C's `sprintf` renders
the 32-bit two's complement, modelled by `% 2^32`. -/
def unexpected_message (code : Int) : String :=
  if code = INVALID_CODE then "Invalid byte sequence"
  else if code = EOF_CODE then "Unexpected end of input"
  else if code = 39 then "Unexpected " ++ dquote ++ squote ++ dquote
  else if 32 ≤ code ∧ code ≤ 126 then
    "Unexpected " ++ squote ++ String.singleton (Char.ofNat code.toNat) ++ squote
  else if code ≤ 255 then
    "Unexpected " ++ squote ++ "\\x" ++ pad_hex 2 ((code % 4294967296).toNat) ++ squote
  else if code ≤ 65535 then
    "Unexpected " ++ squote ++ "\\u" ++ pad_hex 4 code.toNat ++ squote
  else
    "Unexpected " ++ squote ++ "\\U" ++ pad_hex 8 code.toNat ++ squote

/-- `YIP_TOKEN` from yip.h.  The buffer is represented by its payload
bytes; the remaining fields are the position metadata. -/
structure YIP_TOKEN where
  payload : List Nat
  byte_offset : Int
  char_offset : Int
  line : Int
  line_char : Int
  encoding : YIP_ENCODING
  code : Int
deriving DecidableEq, Repr

/-- `CHAR` from yip.c: a character posing as a token plus its class mask. -/
structure CHAR where
  token : YIP_TOKEN
  mask : Int
deriving DecidableEq, Repr

/-- `FRAME` from yip.c: one backtracking snapshot. -/
structure FRAME where
  prev : CHAR
  curr : CHAR
  tokens_depth : Int
  codes_depth : Int
deriving DecidableEq, Repr

/-- The parser state (`struct YIP`) restricted to the members the token
accumulator, backtracking and delivery operations touch.  Every stack is
a list whose last element is the top. -/
structure YIP where
  codes : List Int
  tokens : List YIP_TOKEN
  frames : List FRAME
  next_return_token : Int
deriving DecidableEq, Repr

/-- `RETURN` from yip.c. -/
inductive RETURN where
  | RETURN_ERROR
  | RETURN_DONE
  | RETURN_TOKEN
deriving DecidableEq, Repr

/-- Default token used for out-of-range stack reads (the C stacks are
never empty, which the theorems assume as hypotheses). -/
def junk_token : YIP_TOKEN :=
  { payload := [], byte_offset := 0, char_offset := 0, line := 1, line_char := 0,
    encoding := .utf8, code := NO_CODE }

/-- Default character for out-of-range stack reads. -/
def junk_char : CHAR := { token := junk_token, mask := 0 }

/-- Default frame for out-of-range stack reads. -/
def junk_frame : FRAME :=
  { prev := junk_char, curr := junk_char, tokens_depth := -1, codes_depth := -1 }

/-- The `Code` macro: top of the code stack. -/
def topCode (yip : YIP) : Int := yip.codes.getLastD NO_CODE

/-- The `Token` macro: top of the token stack (the working token). -/
def topToken (yip : YIP) : YIP_TOKEN := yip.tokens.getLastD junk_token

/-- The `Frame` macro: top of the frame stack. -/
def topFrame (yip : YIP) : FRAME := yip.frames.getLastD junk_frame

/-- The `Curr` macro: the current character of the top frame. -/
def Curr (yip : YIP) : YIP_TOKEN := (topFrame yip).curr.token

/-- Overwrite the top of the token stack. -/
def setTopToken (yip : YIP) (t : YIP_TOKEN) : YIP :=
  { yip with tokens := yip.tokens.dropLast ++ [t] }

/-- `end_token` from yip.c.  Pops the code stack unless at the outermost
code; an empty working token is retagged with the remaining top code; a
non-empty one is retagged with the argument code, and when that code is
BOM its buffer is re-pointed at `encoding_names[Token->encoding] + 1`
(the name minus its first character, NUL-terminated) and its encoding
retagged to UTF-8; then the token is staged for delivery (frame depth 1)
or a fresh working token copied from the current character is pushed. -/
def end_token (yip : YIP) (code : Int) : YIP × RETURN :=
  let yip1 := if yip.codes.length = 1 then yip
    else { yip with codes := yip.codes.dropLast }
  if (topToken yip1).payload = [] then
    (setTopToken yip1 { topToken yip1 with code := topCode yip1 }, .RETURN_DONE)
  else
    let tok := { topToken yip1 with code := code }
    let tok2 := if tok.code = YIP_BOM then
        { tok with
          payload := (stringBytes (encoding_names tok.encoding)).drop 1,
          encoding := .utf8 }
      else tok
    let yip2 := setTopToken yip1 tok2
    if yip2.frames.length = 1 then
      ({ yip2 with next_return_token := 0 }, .RETURN_TOKEN)
    else
      ({ yip2 with tokens :=
          yip2.tokens ++ [{ Curr yip2 with payload := [], code := topCode yip2 }] },
        .RETURN_DONE)

/-- `fake_token` from yip.c: stage a token whose payload is a synthesized
byte string rather than input bytes. -/
def fake_token (yip : YIP) (code : Int) (text : Option (List Nat)) : YIP × RETURN :=
  let yip1 := if (topToken yip).payload ≠ [] then
      { yip with tokens := yip.tokens ++ [{ Curr yip with payload := [] }] }
    else yip
  let yip2 := setTopToken yip1 { topToken yip1 with code := code }
  let yip3 := match text with
    | some bs => setTopToken yip2 { topToken yip2 with payload := bs }
    | none => yip2
  if yip3.frames.length = 1 then
    ({ yip3 with next_return_token := 0 }, .RETURN_TOKEN)
  else
    ({ yip3 with tokens :=
        yip3.tokens ++ [{ Curr yip3 with payload := [], code := topCode yip3 }] },
      .RETURN_DONE)

/-- `unexpected` from yip.c: emit a fake Error token carrying the message
for the current character. -/
def unexpected (yip : YIP) : YIP × RETURN :=
  fake_token yip YIP_ERROR (some (stringBytes (unexpected_message (Curr yip).code)))

/-- `push_state` from yip.c: duplicate the top frame and record the
current stack depths in the frame beneath. -/
def push_state (yip : YIP) : YIP :=
  let top := topFrame yip
  let snap := { top with
    tokens_depth := (yip.tokens.length : Int),
    codes_depth := (yip.codes.length : Int) }
  { yip with frames := yip.frames.dropLast ++ [snap, top] }

/-- `reset_state` from yip.c: copy the frame beneath over the top frame,
truncate the code and token stacks to the depths it recorded, rebuild the
working token from the restored current character with the code now at
the top of the truncated code stack, and clear the top frame's depths. -/
def reset_state (yip : YIP) : YIP :=
  let below := yip.frames.getD (yip.frames.length - 2) junk_frame
  let codes2 := yip.codes.take below.codes_depth.toNat
  let tokens2 := yip.tokens.take below.tokens_depth.toNat
  let working : YIP_TOKEN :=
    { below.curr.token with payload := [], code := codes2.getLastD NO_CODE }
  { yip with
    codes := codes2,
    tokens := tokens2.dropLast ++ [working],
    frames := yip.frames.dropLast ++ [{ below with tokens_depth := -1, codes_depth := -1 }] }

/-- The `Frame[-1]` accessor: the frame beneath the top frame. -/
def below_frame (yip : YIP) : FRAME :=
  yip.frames.getD (yip.frames.length - 2) junk_frame

/-- `last_token` from yip.c: reset delivery after the staged tokens are
exhausted — the token stack collapses to a single working token rebuilt
from the current character. -/
def last_token (yip : YIP) : YIP :=
  { yip with
    next_return_token := -1,
    tokens := [{ Curr yip with payload := [], code := topCode yip }] }

/-- `next_token` from yip.c: hand out the token at `Next_return_token`.
A DONE token does not advance the index; any other token does.  `none`
models a violated assertion (the C code asserts the index is valid). -/
def next_token (yip : YIP) : Option (YIP_TOKEN × YIP) :=
  if 0 ≤ yip.next_return_token ∧ yip.next_return_token < (yip.tokens.length : Int) then
    let token := yip.tokens.getD yip.next_return_token.toNat junk_token
    if token.code = YIP_DONE then some (token, yip)
    else some (token, { yip with next_return_token := yip.next_return_token + 1 })
  else none

/-- The `switch ((*Machine)(yip))` of `yip_next_token`: an error return
aborts, a token return delivers, and `RETURN_DONE` hits `assert(0)`. -/
def machine_step (machine : YIP → RETURN × YIP) (yip : YIP) : Option (YIP_TOKEN × YIP) :=
  match machine yip with
  | (.RETURN_ERROR, _) => none
  | (.RETURN_TOKEN, yip2) => next_token yip2
  | (.RETURN_DONE, _) => none

/-- `yip_next_token` from yip.c, parameterized by the production machine. -/
def yip_next_token (machine : YIP → RETURN × YIP) (yip : YIP) : Option (YIP_TOKEN × YIP) :=
  if (yip.tokens.length : Int) ≤ yip.next_return_token then
    machine_step machine (last_token yip)
  else if 0 ≤ yip.next_return_token then
    next_token yip
  else machine_step machine yip

/-- Iterated calls of `yip_next_token`: the token returned by the call
after skipping `k` calls. -/
def tokens_from (machine : YIP → RETURN × YIP) (yip : YIP) : Nat → Option (YIP_TOKEN × YIP)
  | 0 => yip_next_token machine yip
  | k + 1 =>
    match yip_next_token machine yip with
    | some (_, yip2) => tokens_from machine yip2 k
    | none => none

/-- A decoded input character used by the concrete example states. -/
def sample_char_token : YIP_TOKEN :=
  { payload := [0x61], byte_offset := 3, char_offset := 1, line := 1, line_char := 1,
    encoding := .utf8, code := 0x61 }

/-- A concrete live frame (depths −1 mark the top frame, as in yip.c). -/
def sample_frame : FRAME :=
  { prev := { token := sample_char_token, mask := 2 },
    curr := { token := sample_char_token, mask := 2 },
    tokens_depth := -1, codes_depth := -1 }

/-- A BOM token whose bytes are the UTF-8 byte order mark. -/
def c2_bom_token : YIP_TOKEN :=
  { payload := [0xEF, 0xBB, 0xBF], byte_offset := 0, char_offset := 0, line := 1,
    line_char := 0, encoding := .utf8, code := YIP_BOM }

/-- Concrete parser state whose working token is the BOM token above. -/
def c2_state : YIP :=
  { codes := [YIP_UNPARSED, YIP_BOM], tokens := [c2_bom_token],
    frames := [sample_frame], next_return_token := -1 }

/-- An empty `UNPARSED` working token, as `push_state` requires. -/
def c3_working_token : YIP_TOKEN :=
  { payload := [], byte_offset := 0, char_offset := 0, line := 1, line_char := 0,
    encoding := .utf8, code := YIP_UNPARSED }

/-- Concrete parser state with an open `BEGIN_SCALAR` code above the
outermost `UNPARSED` and the empty `UNPARSED` working token above. -/
def c3_base : YIP :=
  { codes := [YIP_UNPARSED, YIP_BEGIN_SCALAR], tokens := [c3_working_token],
    frames := [sample_frame], next_return_token := -1 }

/-- A DONE token as staged by the parser at end of stream. -/
def c10_done_token : YIP_TOKEN :=
  { payload := [], byte_offset := 4, char_offset := 2, line := 1, line_char := 2,
    encoding := .utf8, code := YIP_DONE }

/-- Concrete parser state with a staged DONE token. -/
def c10_state : YIP :=
  { codes := [YIP_UNPARSED],
    tokens := [c10_done_token],
    frames := [sample_frame],
    next_return_token := 0 }

/-- A machine that fails if it is ever invoked (it never is after DONE). -/
def c10_machine : YIP → RETURN × YIP := fun yip => (.RETURN_ERROR, yip)

/-- Result of a byte-source operation: the C return value, the source (a
null pointer is `none`), and whether `errno` was set to `EINVAL`. -/
structure SRC_RESULT (α : Type) where
  ret : Int
  src : α
  einval : Bool
deriving DecidableEq, Repr

/-- A memory byte source (`yip_buffer_source` and the string and mmap
variants share its `more`/`less` operations): the window bytes and the
byte offset of the window start in the original stream. -/
structure YIP_SOURCE_MEM where
  window : List Nat
  byte_offset : Int
deriving DecidableEq, Repr

/-- `buffer_more` from yip.c. -/
def buffer_more (source : Option YIP_SOURCE_MEM) (size : Int) :
    SRC_RESULT (Option YIP_SOURCE_MEM) :=
  match source with
  | none => ⟨-1, none, true⟩
  | some s => if size < 0 then ⟨-1, some s, true⟩ else ⟨0, some s, false⟩

/-- `buffer_less` from yip.c. -/
def buffer_less (source : Option YIP_SOURCE_MEM) (size : Int) :
    SRC_RESULT (Option YIP_SOURCE_MEM) :=
  match source with
  | none => ⟨-1, none, true⟩
  | some s =>
    if size < 0 then ⟨-1, some s, true⟩
    else if (s.window.length : Int) < size then ⟨-1, some s, true⟩
    else
      ⟨size,
        some { window := s.window.drop size.toNat, byte_offset := s.byte_offset + size },
        false⟩

/-- `DYNAMIC_SOURCE` from yip.c: `phys` is the content of the physical
buffer `[base, base + size)`, `gap` the offset of the window begin from
the base, `len` the window (data) size. -/
structure DYNAMIC_SOURCE where
  phys : List Nat
  gap : Nat
  len : Nat
  byte_offset : Int
deriving DecidableEq, Repr

/-- The window of a dynamic source. -/
def dyn_window (s : DYNAMIC_SOURCE) : List Nat := (s.phys.drop s.gap).take s.len

/-- `dynamic_less` from yip.c.  After advancing the window begin, the
remaining data is `memcpy`-ed down to the buffer base when the freed gap
(`begin - base`) is at least the data remaining. -/
def dynamic_less (source : Option DYNAMIC_SOURCE) (size : Int) :
    SRC_RESULT (Option DYNAMIC_SOURCE) :=
  match source with
  | none => ⟨-1, none, true⟩
  | some s =>
    if size < 0 then ⟨-1, some s, true⟩
    else if (s.len : Int) < size then ⟨-1, some s, true⟩
    else
      let n := size.toNat
      let gap2 := s.gap + n
      let len2 := s.len - n
      let off2 := s.byte_offset + size
      if len2 ≤ gap2 then
        let moved := (s.phys.drop gap2).take len2
        ⟨size,
          some { phys := moved ++ s.phys.drop moved.length, gap := 0, len := len2, byte_offset := off2 },
          false⟩
      else
        ⟨size, some { s with gap := gap2, len := len2, byte_offset := off2 }, false⟩

/-- C1: encoding-detection round-trip.  The sample string is "ab".  The
BOM and BOM-less samples of four encodings detect correctly, and the
UTF-16LE sample with a BOM does too, but the BOM-less UTF-16LE sample
(an ASCII character followed by a zero byte) is detected as UTF-16BE:
the `byte_1 == 0x00` arm of `detect_encoding` returns `YIP_UTF16BE`
where the YAML deduction table it transcribes requires UTF-16LE, so the
round-trip claimed by the spec fails for exactly this case. -/
theorem c1_detect_encoding_roundtrip_fails_for_bomless_utf16le :
    detect_encoding [0x61, 0x00, 0x62, 0x00] = .utf16be ∧
    YIP_ENCODING.utf16be ≠ YIP_ENCODING.utf16le ∧
    detect_encoding [0x61, 0x62] = .utf8 ∧
    detect_encoding [0xEF, 0xBB, 0xBF, 0x61] = .utf8 ∧
    detect_encoding [0xFF, 0xFE, 0x61, 0x00] = .utf16le ∧
    detect_encoding [0x00, 0x61, 0x00, 0x62] = .utf16be ∧
    detect_encoding [0xFE, 0xFF, 0x00, 0x61] = .utf16be ∧
    detect_encoding [0x61, 0x00, 0x00, 0x00] = .utf32le ∧
    detect_encoding [0xFF, 0xFE, 0x00, 0x00] = .utf32le ∧
    detect_encoding [0x00, 0x00, 0x00, 0x61] = .utf32be ∧
    detect_encoding [0x00, 0x00, 0xFE, 0xFF] = .utf32be := by
  decide

/-- Disjoint bit-or is addition: `(a <<< k) ||| b = a * 2 ^ k + b` when
`b` fits in the low `k` bits. -/
theorem shiftLeft_lor_eq_add {b k : Nat} (a : Nat) (hb : b < 2 ^ k) :
    (a <<< k) ||| b = a * 2 ^ k + b := by
  rw [Nat.shiftLeft_eq, Nat.mul_comm a (2 ^ k), ← Nat.mul_add_lt_is_or hb a]

/-- Recomposing a 16-bit unit from its little-endian bytes. -/
theorem lo_hi_recompose (u : Nat) : (u % 256) ||| ((u / 256) <<< 8) = u := by
  rw [Nat.lor_comm, shiftLeft_lor_eq_add (u / 256) (show u % 256 < 2 ^ 8 by omega)]
  have h8 : (2 : Nat) ^ 8 = 256 := by norm_num
  rw [h8]
  omega

/-- Recomposing a 16-bit unit from its big-endian bytes. -/
theorem hi_lo_recompose (u : Nat) : ((u / 256) <<< 8) ||| (u % 256) = u := by
  rw [shiftLeft_lor_eq_add (u / 256) (show u % 256 < 2 ^ 8 by omega)]
  have h8 : (2 : Nat) ^ 8 = 256 := by norm_num
  rw [h8]
  omega

/-- A natural-number cast is never negative (simp-oriented form). -/
theorem natCast_not_lt_zero (n : Nat) : ¬((n : Int) < 0) := by omega

/-- `next_byte` at the head of a non-empty range. -/
theorem nb0 (a : Nat) (l : List Nat) : next_byte (a :: l) 0 = ((a : Int), 1) := by
  simp [next_byte]

/-- `next_byte` at offset 1 of a range of at least two bytes. -/
theorem nb1 (a b : Nat) (l : List Nat) : next_byte (a :: b :: l) 1 = ((b : Int), 2) := by
  simp [next_byte]

/-- `next_byte` at offset 2 of a range of at least three bytes. -/
theorem nb2 (a b c : Nat) (l : List Nat) :
    next_byte (a :: b :: c :: l) 2 = ((c : Int), 3) := by
  simp [next_byte]

/-- `next_byte` at offset 3 of a range of at least four bytes. -/
theorem nb3 (a b c d : Nat) (l : List Nat) :
    next_byte (a :: b :: c :: d :: l) 3 = ((d : Int), 4) := by
  simp [next_byte]

/-- `next_byte` at the end of a two-byte range fails without advancing. -/
theorem nb_end2 (a b : Nat) : next_byte [a, b] 2 = (-1, 2) := rfl

/-- `next_byte` at the end of a three-byte range fails without advancing. -/
theorem nb_end3 (a b c : Nat) : next_byte [a, b, c] 3 = (-1, 3) := rfl

/-- C5: both UTF-16 decoders.  The 16-bit units are presented through
their bytes (`u % 256`, `u / 256` in the appropriate order).  A first
unit in the low-surrogate range fails; a high surrogate followed by a
low surrogate combines by the documented formula; a high surrogate with
a truncated or out-of-range second unit fails; any other complete unit
is returned as its 16-bit value.  All cursor positions are as stated. -/
theorem c5_utf16_decoders (u v b2 : Nat) (rest : List Nat) :
    (0xDC00 ≤ u → u < 0xE000 →
      yip_decode_utf16le (u % 256 :: u / 256 :: rest) 0 = (INVALID_CODE, 2)) ∧
    (u < 0x10000 → (u < 0xD800 ∨ 0xE000 ≤ u) →
      yip_decode_utf16le (u % 256 :: u / 256 :: rest) 0 = ((u : Int), 2)) ∧
    (0xD800 ≤ u → u < 0xDC00 → 0xDC00 ≤ v → v < 0xE000 →
      yip_decode_utf16le (u % 256 :: u / 256 :: v % 256 :: v / 256 :: rest) 0
        = ((((u <<< 10) + v + 0x10000 : Nat) : Int)
            - ((0xD800 <<< 10 : Nat) : Int) - 0xDC00, 4)) ∧
    (0xD800 ≤ u → u < 0xDC00 →
      yip_decode_utf16le [u % 256, u / 256] 0 = (INVALID_CODE, 2)) ∧
    (0xD800 ≤ u → u < 0xDC00 →
      yip_decode_utf16le [u % 256, u / 256, b2] 0 = (INVALID_CODE, 3)) ∧
    (0xD800 ≤ u → u < 0xDC00 → v < 0x10000 → (v < 0xDC00 ∨ 0xE000 ≤ v) →
      yip_decode_utf16le (u % 256 :: u / 256 :: v % 256 :: v / 256 :: rest) 0
        = (INVALID_CODE, 4)) ∧
    (0xDC00 ≤ u → u < 0xE000 →
      yip_decode_utf16be (u / 256 :: u % 256 :: rest) 0 = (INVALID_CODE, 2)) ∧
    (u < 0x10000 → (u < 0xD800 ∨ 0xE000 ≤ u) →
      yip_decode_utf16be (u / 256 :: u % 256 :: rest) 0 = ((u : Int), 2)) ∧
    (0xD800 ≤ u → u < 0xDC00 → 0xDC00 ≤ v → v < 0xE000 →
      yip_decode_utf16be (u / 256 :: u % 256 :: v / 256 :: v % 256 :: rest) 0
        = ((((u <<< 10) + v + 0x10000 : Nat) : Int)
            - ((0xD800 <<< 10 : Nat) : Int) - 0xDC00, 4)) ∧
    (0xD800 ≤ u → u < 0xDC00 →
      yip_decode_utf16be [u / 256, u % 256] 0 = (INVALID_CODE, 2)) ∧
    (0xD800 ≤ u → u < 0xDC00 →
      yip_decode_utf16be [u / 256, u % 256, b2] 0 = (INVALID_CODE, 3)) ∧
    (0xD800 ≤ u → u < 0xDC00 → v < 0x10000 → (v < 0xDC00 ∨ 0xE000 ≤ v) →
      yip_decode_utf16be (u / 256 :: u % 256 :: v / 256 :: v % 256 :: rest) 0
        = (INVALID_CODE, 4)) := by
  refine ⟨?_, ?_, ?_, ?_, ?_, ?_, ?_, ?_, ?_, ?_, ?_, ?_⟩
  · intro h1 h2
    simp only [yip_decode_utf16le, nb0, nb1, Int.toNat_natCast, lo_hi_recompose]
    rw [if_neg (natCast_not_lt_zero _), if_neg (natCast_not_lt_zero _), if_pos ⟨h1, h2⟩]
  · intro h1 h2
    simp only [yip_decode_utf16le, nb0, nb1, Int.toNat_natCast, lo_hi_recompose]
    rw [if_neg (natCast_not_lt_zero _), if_neg (natCast_not_lt_zero _),
      if_neg (by omega : ¬(0xDC00 ≤ u ∧ u < 0xE000)),
      if_pos (by omega : u < 0xD800 ∨ 0xDC00 ≤ u)]
  · intro h1 h2 h3 h4
    simp only [yip_decode_utf16le, nb0, nb1, nb2, nb3, Int.toNat_natCast, lo_hi_recompose]
    rw [if_neg (natCast_not_lt_zero _), if_neg (natCast_not_lt_zero _),
      if_neg (by omega : ¬(0xDC00 ≤ u ∧ u < 0xE000)),
      if_neg (by omega : ¬(u < 0xD800 ∨ 0xDC00 ≤ u)),
      if_neg (natCast_not_lt_zero _), if_neg (natCast_not_lt_zero _),
      if_neg (by omega : ¬(v < 0xDC00 ∨ 0xE000 ≤ v))]
  · intro h1 h2
    simp only [yip_decode_utf16le, nb0, nb1, nb_end2, Int.toNat_natCast, lo_hi_recompose]
    rw [if_neg (natCast_not_lt_zero _), if_neg (natCast_not_lt_zero _),
      if_neg (by omega : ¬(0xDC00 ≤ u ∧ u < 0xE000)),
      if_neg (by omega : ¬(u < 0xD800 ∨ 0xDC00 ≤ u)),
      if_pos (by norm_num : (-1 : Int) < 0)]
  · intro h1 h2
    simp only [yip_decode_utf16le, nb0, nb1, nb2, nb_end3, Int.toNat_natCast, lo_hi_recompose]
    rw [if_neg (natCast_not_lt_zero _), if_neg (natCast_not_lt_zero _),
      if_neg (by omega : ¬(0xDC00 ≤ u ∧ u < 0xE000)),
      if_neg (by omega : ¬(u < 0xD800 ∨ 0xDC00 ≤ u)),
      if_neg (natCast_not_lt_zero _), if_pos (by norm_num : (-1 : Int) < 0)]
  · intro h1 h2 h3 h4
    simp only [yip_decode_utf16le, nb0, nb1, nb2, nb3, Int.toNat_natCast, lo_hi_recompose]
    rw [if_neg (natCast_not_lt_zero _), if_neg (natCast_not_lt_zero _),
      if_neg (by omega : ¬(0xDC00 ≤ u ∧ u < 0xE000)),
      if_neg (by omega : ¬(u < 0xD800 ∨ 0xDC00 ≤ u)),
      if_neg (natCast_not_lt_zero _), if_neg (natCast_not_lt_zero _),
      if_pos (by omega : v < 0xDC00 ∨ 0xE000 ≤ v)]
  · intro h1 h2
    simp only [yip_decode_utf16be, nb0, nb1, Int.toNat_natCast, hi_lo_recompose]
    rw [if_neg (natCast_not_lt_zero _), if_neg (natCast_not_lt_zero _), if_pos ⟨h1, h2⟩]
  · intro h1 h2
    simp only [yip_decode_utf16be, nb0, nb1, Int.toNat_natCast, hi_lo_recompose]
    rw [if_neg (natCast_not_lt_zero _), if_neg (natCast_not_lt_zero _),
      if_neg (by omega : ¬(0xDC00 ≤ u ∧ u < 0xE000)),
      if_pos (by omega : u < 0xD800 ∨ 0xDC00 ≤ u)]
  · intro h1 h2 h3 h4
    simp only [yip_decode_utf16be, nb0, nb1, nb2, nb3, Int.toNat_natCast, hi_lo_recompose]
    rw [if_neg (natCast_not_lt_zero _), if_neg (natCast_not_lt_zero _),
      if_neg (by omega : ¬(0xDC00 ≤ u ∧ u < 0xE000)),
      if_neg (by omega : ¬(u < 0xD800 ∨ 0xDC00 ≤ u)),
      if_neg (natCast_not_lt_zero _), if_neg (natCast_not_lt_zero _),
      if_neg (by omega : ¬(v < 0xDC00 ∨ 0xE000 ≤ v))]
  · intro h1 h2
    simp only [yip_decode_utf16be, nb0, nb1, nb_end2, Int.toNat_natCast, hi_lo_recompose]
    rw [if_neg (natCast_not_lt_zero _), if_neg (natCast_not_lt_zero _),
      if_neg (by omega : ¬(0xDC00 ≤ u ∧ u < 0xE000)),
      if_neg (by omega : ¬(u < 0xD800 ∨ 0xDC00 ≤ u)),
      if_pos (by norm_num : (-1 : Int) < 0)]
  · intro h1 h2
    simp only [yip_decode_utf16be, nb0, nb1, nb2, nb_end3, Int.toNat_natCast, hi_lo_recompose]
    rw [if_neg (natCast_not_lt_zero _), if_neg (natCast_not_lt_zero _),
      if_neg (by omega : ¬(0xDC00 ≤ u ∧ u < 0xE000)),
      if_neg (by omega : ¬(u < 0xD800 ∨ 0xDC00 ≤ u)),
      if_neg (natCast_not_lt_zero _), if_pos (by norm_num : (-1 : Int) < 0)]
  · intro h1 h2 h3 h4
    simp only [yip_decode_utf16be, nb0, nb1, nb2, nb3, Int.toNat_natCast, hi_lo_recompose]
    rw [if_neg (natCast_not_lt_zero _), if_neg (natCast_not_lt_zero _),
      if_neg (by omega : ¬(0xDC00 ≤ u ∧ u < 0xE000)),
      if_neg (by omega : ¬(u < 0xD800 ∨ 0xDC00 ≤ u)),
      if_neg (natCast_not_lt_zero _), if_neg (natCast_not_lt_zero _),
      if_pos (by omega : v < 0xDC00 ∨ 0xE000 ≤ v)]

/-- Restricting a known masked value to a smaller mask. -/
theorem and_of_and_eq {x m v : Nat} (h : x &&& m = v) (s : Nat) (hms : m &&& s = s) :
    x &&& s = v &&& s := by
  conv_lhs => rw [← hms, ← Nat.and_assoc, h]

/-- Multiplying out one step of the UTF-8 accumulation. -/
theorem shiftLeft6_lor_and63 (a b : Nat) :
    (a <<< 6) ||| (b &&& 0x3F) = a * 64 + (b &&& 0x3F) := by
  have hb : b &&& 0x3F < 2 ^ 6 := lt_of_le_of_lt Nat.and_le_right (by norm_num)
  rw [shiftLeft_lor_eq_add a hb]
  norm_num

/-- A 2-byte UTF-8 leader selects one continuation byte. -/
theorem utf8_start2 (b0 : Nat) (l : List Nat) (h : b0 &&& 0xE0 = 0xC0) :
    yip_decode_utf8 (b0 :: l) 0 = utf8_continuations 1 (b0 &&& 0x1F) (b0 :: l) 1 := by
  have h80 : b0 &&& 0x80 = 0x80 := by rw [and_of_and_eq h 0x80 (by decide)]; decide
  simp only [yip_decode_utf8, nb0, Int.toNat_natCast]
  rw [if_neg (natCast_not_lt_zero _), if_neg (by omega), if_pos h]

/-- A 3-byte UTF-8 leader selects two continuation bytes. -/
theorem utf8_start3 (b0 : Nat) (l : List Nat) (h : b0 &&& 0xF0 = 0xE0) :
    yip_decode_utf8 (b0 :: l) 0 = utf8_continuations 2 (b0 &&& 0xF) (b0 :: l) 1 := by
  have h80 : b0 &&& 0x80 = 0x80 := by rw [and_of_and_eq h 0x80 (by decide)]; decide
  have hE0 : b0 &&& 0xE0 = 0xE0 := by rw [and_of_and_eq h 0xE0 (by decide)]; decide
  simp only [yip_decode_utf8, nb0, Int.toNat_natCast]
  rw [if_neg (natCast_not_lt_zero _), if_neg (by omega), if_neg (by omega), if_pos h]

/-- A 4-byte UTF-8 leader selects three continuation bytes. -/
theorem utf8_start4 (b0 : Nat) (l : List Nat) (h : b0 &&& 0xF8 = 0xF0) :
    yip_decode_utf8 (b0 :: l) 0 = utf8_continuations 3 (b0 &&& 0x7) (b0 :: l) 1 := by
  have h80 : b0 &&& 0x80 = 0x80 := by rw [and_of_and_eq h 0x80 (by decide)]; decide
  have hE0 : b0 &&& 0xE0 = 0xE0 := by rw [and_of_and_eq h 0xE0 (by decide)]; decide
  have hF0 : b0 &&& 0xF0 = 0xF0 := by rw [and_of_and_eq h 0xF0 (by decide)]; decide
  simp only [yip_decode_utf8, nb0, Int.toNat_natCast]
  rw [if_neg (natCast_not_lt_zero _), if_neg (by omega), if_neg (by omega),
    if_neg (by omega), if_pos h]

/-- A 5-byte UTF-8 leader selects four continuation bytes. -/
theorem utf8_start5 (b0 : Nat) (l : List Nat) (h : b0 &&& 0xFC = 0xF8) :
    yip_decode_utf8 (b0 :: l) 0 = utf8_continuations 4 (b0 &&& 0x3) (b0 :: l) 1 := by
  have h80 : b0 &&& 0x80 = 0x80 := by rw [and_of_and_eq h 0x80 (by decide)]; decide
  have hE0 : b0 &&& 0xE0 = 0xE0 := by rw [and_of_and_eq h 0xE0 (by decide)]; decide
  have hF0 : b0 &&& 0xF0 = 0xF0 := by rw [and_of_and_eq h 0xF0 (by decide)]; decide
  have hF8 : b0 &&& 0xF8 = 0xF8 := by rw [and_of_and_eq h 0xF8 (by decide)]; decide
  simp only [yip_decode_utf8, nb0, Int.toNat_natCast]
  rw [if_neg (natCast_not_lt_zero _), if_neg (by omega), if_neg (by omega),
    if_neg (by omega), if_neg (by omega), if_pos h]

/-- A 6-byte UTF-8 leader selects five continuation bytes. -/
theorem utf8_start6 (b0 : Nat) (l : List Nat) (h : b0 &&& 0xFE = 0xFC) :
    yip_decode_utf8 (b0 :: l) 0 = utf8_continuations 5 (b0 &&& 0x1) (b0 :: l) 1 := by
  have h80 : b0 &&& 0x80 = 0x80 := by rw [and_of_and_eq h 0x80 (by decide)]; decide
  have hE0 : b0 &&& 0xE0 = 0xE0 := by rw [and_of_and_eq h 0xE0 (by decide)]; decide
  have hF0 : b0 &&& 0xF0 = 0xF0 := by rw [and_of_and_eq h 0xF0 (by decide)]; decide
  have hF8 : b0 &&& 0xF8 = 0xF8 := by rw [and_of_and_eq h 0xF8 (by decide)]; decide
  have hFC : b0 &&& 0xFC = 0xFC := by rw [and_of_and_eq h 0xFC (by decide)]; decide
  simp only [yip_decode_utf8, nb0, Int.toNat_natCast]
  rw [if_neg (natCast_not_lt_zero _), if_neg (by omega), if_neg (by omega),
    if_neg (by omega), if_neg (by omega), if_neg (by omega), if_pos h]

/-- The continuation loop fails at the end of the input when continuation
bytes are still expected, leaving the cursor at the end. -/
theorem utf8_cont_truncated (n : Nat) :
    ∀ (code pos : Nat) (bytes : List Nat),
      pos ≤ bytes.length → bytes.length - pos < n →
      (∀ i, pos ≤ i → i < bytes.length → (bytes.getD i 0) &&& 0xC0 = 0x80) →
      utf8_continuations n code bytes pos = (INVALID_CODE, bytes.length) := by
  induction n with
  | zero =>
    intro code pos bytes h1 h2 h3
    exact absurd h2 (by omega)
  | succ n ih =>
    intro code pos bytes h1 h2 h3
    unfold utf8_continuations
    by_cases h : bytes.length ≤ pos
    · rw [if_pos h, show pos = bytes.length from le_antisymm h1 h]
    · rw [if_neg h, if_neg (not_not_intro (h3 pos le_rfl (by omega)))]
      exact ih _ (pos + 1) bytes (by omega) (by omega) fun i hi hi2 => h3 i (by omega) hi2

/-- The continuation loop fails one byte past the first non-continuation
byte it meets. -/
theorem utf8_cont_bad (j : Nat) :
    ∀ (n code pos : Nat) (bytes : List Nat),
      j < n →
      (∀ i, i < j → (bytes.getD (pos + i) 0) &&& 0xC0 = 0x80) →
      pos + j < bytes.length →
      ¬((bytes.getD (pos + j) 0) &&& 0xC0 = 0x80) →
      utf8_continuations n code bytes pos = (INVALID_CODE, pos + j + 1) := by
  induction j with
  | zero =>
    intro n code pos bytes h1 h2 h3 h4
    match n, h1 with
    | n + 1, _ =>
      unfold utf8_continuations
      rw [if_neg (by omega), if_pos (by simpa using h4)]
  | succ j ih =>
    intro n code pos bytes h1 h2 h3 h4
    match n, h1 with
    | n + 1, h1 =>
      unfold utf8_continuations
      have hgood : (bytes.getD pos 0) &&& 0xC0 = 0x80 := by
        have := h2 0 (by omega)
        simpa using this
      rw [if_neg (by omega), if_neg (not_not_intro hgood)]
      have hrec := ih n ((code <<< 6) ||| (bytes.getD pos 0 &&& 0x3F)) (pos + 1) bytes
        (by omega)
        (fun i hi => by
          have := h2 (i + 1) (by omega)
          have e : pos + (i + 1) = pos + 1 + i := by omega
          rwa [e] at this)
        (by omega)
        (by
          have e : pos + 1 + j = pos + (j + 1) := by omega
          rwa [e])
      rw [hrec]
      have e : pos + 1 + j + 1 = pos + (j + 1) + 1 := by omega
      rw [e]

/-- A byte below 0x80 has a clear top bit. -/
theorem ascii_and_80 {b : Nat} (h : b < 0x80) : b &&& 0x80 = 0 := by
  have h7 : b < 2 ^ 7 := by simpa using h
  have h2 := Nat.and_two_pow b 7
  rw [Nat.testBit_lt_two_pow h7] at h2
  simpa using h2

/-- One successful step of the UTF-8 continuation loop. -/
theorem utf8_cont_step (n code : Nat) (bytes : List Nat) (pos : Nat)
    (hlen : pos < bytes.length) (hgood : bytes.getD pos 0 &&& 0xC0 = 0x80) :
    utf8_continuations (n + 1) code bytes pos
      = utf8_continuations n ((code <<< 6) ||| (bytes.getD pos 0 &&& 0x3F)) bytes (pos + 1) := by
  conv_lhs => rw [utf8_continuations]
  rw [if_neg (by omega), if_neg (not_not_intro hgood)]

/-- C6: `yip_decode_utf8`.  A k-byte leader of the historical 1..6-byte
forms followed by exactly k−1 continuation bytes decodes to the
assembled code point (over-long forms are not rejected: the hypotheses
place no lower bound on the assembled value); a leader matching no form
(a 10xxxxxx byte, 0xFE or 0xFF), a sequence that ends before its
continuation bytes are complete, and a non-continuation byte where a
continuation is expected all yield `INVALID_CODE`, with the cursor
advanced past exactly the bytes consumed. -/
theorem c6_utf8_decoder (b0 b1 b2 b3 b4 b5 : Nat) (cs rest : List Nat) :
    (b0 < 0x80 → yip_decode_utf8 (b0 :: rest) 0 = ((b0 : Int), 1)) ∧
    (b0 &&& 0xE0 = 0xC0 → b1 &&& 0xC0 = 0x80 →
      yip_decode_utf8 (b0 :: b1 :: rest) 0
        = ((((b0 &&& 0x1F) * 64 + (b1 &&& 0x3F) : Nat) : Int), 2)) ∧
    (b0 &&& 0xF0 = 0xE0 → b1 &&& 0xC0 = 0x80 → b2 &&& 0xC0 = 0x80 →
      yip_decode_utf8 (b0 :: b1 :: b2 :: rest) 0
        = ((((b0 &&& 0xF) * 4096 + (b1 &&& 0x3F) * 64 + (b2 &&& 0x3F) : Nat) : Int), 3)) ∧
    (b0 &&& 0xF8 = 0xF0 → b1 &&& 0xC0 = 0x80 → b2 &&& 0xC0 = 0x80 → b3 &&& 0xC0 = 0x80 →
      yip_decode_utf8 (b0 :: b1 :: b2 :: b3 :: rest) 0
        = ((((b0 &&& 0x7) * 262144 + (b1 &&& 0x3F) * 4096 + (b2 &&& 0x3F) * 64
            + (b3 &&& 0x3F) : Nat) : Int), 4)) ∧
    (b0 &&& 0xFC = 0xF8 → b1 &&& 0xC0 = 0x80 → b2 &&& 0xC0 = 0x80 → b3 &&& 0xC0 = 0x80 →
      b4 &&& 0xC0 = 0x80 →
      yip_decode_utf8 (b0 :: b1 :: b2 :: b3 :: b4 :: rest) 0
        = ((((b0 &&& 0x3) * 16777216 + (b1 &&& 0x3F) * 262144 + (b2 &&& 0x3F) * 4096
            + (b3 &&& 0x3F) * 64 + (b4 &&& 0x3F) : Nat) : Int), 5)) ∧
    (b0 &&& 0xFE = 0xFC → b1 &&& 0xC0 = 0x80 → b2 &&& 0xC0 = 0x80 → b3 &&& 0xC0 = 0x80 →
      b4 &&& 0xC0 = 0x80 → b5 &&& 0xC0 = 0x80 →
      yip_decode_utf8 (b0 :: b1 :: b2 :: b3 :: b4 :: b5 :: rest) 0
        = ((((b0 &&& 0x1) * 1073741824 + (b1 &&& 0x3F) * 16777216 + (b2 &&& 0x3F) * 262144
            + (b3 &&& 0x3F) * 4096 + (b4 &&& 0x3F) * 64 + (b5 &&& 0x3F) : Nat) : Int), 6)) ∧
    (b0 &&& 0xC0 = 0x80 → yip_decode_utf8 (b0 :: rest) 0 = (INVALID_CODE, 1)) ∧
    (yip_decode_utf8 (0xFE :: rest) 0 = (INVALID_CODE, 1)) ∧
    (yip_decode_utf8 (0xFF :: rest) 0 = (INVALID_CODE, 1)) ∧
    (b0 &&& 0xE0 = 0xC0 → (∀ c ∈ cs, c &&& 0xC0 = 0x80) → cs.length < 1 →
      yip_decode_utf8 (b0 :: cs) 0 = (INVALID_CODE, (b0 :: cs).length)) ∧
    (b0 &&& 0xF0 = 0xE0 → (∀ c ∈ cs, c &&& 0xC0 = 0x80) → cs.length < 2 →
      yip_decode_utf8 (b0 :: cs) 0 = (INVALID_CODE, (b0 :: cs).length)) ∧
    (b0 &&& 0xF8 = 0xF0 → (∀ c ∈ cs, c &&& 0xC0 = 0x80) → cs.length < 3 →
      yip_decode_utf8 (b0 :: cs) 0 = (INVALID_CODE, (b0 :: cs).length)) ∧
    (b0 &&& 0xFC = 0xF8 → (∀ c ∈ cs, c &&& 0xC0 = 0x80) → cs.length < 4 →
      yip_decode_utf8 (b0 :: cs) 0 = (INVALID_CODE, (b0 :: cs).length)) ∧
    (b0 &&& 0xFE = 0xFC → (∀ c ∈ cs, c &&& 0xC0 = 0x80) → cs.length < 5 →
      yip_decode_utf8 (b0 :: cs) 0 = (INVALID_CODE, (b0 :: cs).length)) ∧
    (b0 &&& 0xE0 = 0xC0 → (∀ c ∈ cs, c &&& 0xC0 = 0x80) → cs.length < 1 →
      ¬(b1 &&& 0xC0 = 0x80) →
      yip_decode_utf8 (b0 :: (cs ++ b1 :: rest)) 0 = (INVALID_CODE, cs.length + 2)) ∧
    (b0 &&& 0xF0 = 0xE0 → (∀ c ∈ cs, c &&& 0xC0 = 0x80) → cs.length < 2 →
      ¬(b1 &&& 0xC0 = 0x80) →
      yip_decode_utf8 (b0 :: (cs ++ b1 :: rest)) 0 = (INVALID_CODE, cs.length + 2)) ∧
    (b0 &&& 0xF8 = 0xF0 → (∀ c ∈ cs, c &&& 0xC0 = 0x80) → cs.length < 3 →
      ¬(b1 &&& 0xC0 = 0x80) →
      yip_decode_utf8 (b0 :: (cs ++ b1 :: rest)) 0 = (INVALID_CODE, cs.length + 2)) ∧
    (b0 &&& 0xFC = 0xF8 → (∀ c ∈ cs, c &&& 0xC0 = 0x80) → cs.length < 4 →
      ¬(b1 &&& 0xC0 = 0x80) →
      yip_decode_utf8 (b0 :: (cs ++ b1 :: rest)) 0 = (INVALID_CODE, cs.length + 2)) ∧
    (b0 &&& 0xFE = 0xFC → (∀ c ∈ cs, c &&& 0xC0 = 0x80) → cs.length < 5 →
      ¬(b1 &&& 0xC0 = 0x80) →
      yip_decode_utf8 (b0 :: (cs ++ b1 :: rest)) 0 = (INVALID_CODE, cs.length + 2)) := by
  have hmem : ∀ (cs : List Nat), (∀ c ∈ cs, c &&& 0xC0 = 0x80) →
      ∀ i, 1 ≤ i → i < (cs.length + 1) → ((b0 :: cs).getD i 0) &&& 0xC0 = 0x80 := by
    intro cs hcs i hi hi2
    match i, hi with
    | i + 1, _ =>
      simp only [List.getD_cons_succ]
      have hilen : i < cs.length := by omega
      rw [List.getD_eq_getElem cs 0 hilen]
      exact hcs _ (List.getElem_mem hilen)
  have htrunc : ∀ (k : Nat) (pm : Nat) (cs : List Nat), (∀ c ∈ cs, c &&& 0xC0 = 0x80) →
      cs.length < k →
      utf8_continuations k (b0 &&& pm) (b0 :: cs) 1 = (INVALID_CODE, (b0 :: cs).length) := by
    intro k pm cs hcs hlen
    refine utf8_cont_truncated k _ 1 (b0 :: cs) (by simp) (by simp; omega) ?_
    intro i hi hi2
    exact hmem cs hcs i hi (by simpa using hi2)
  have hbadc : ∀ (k : Nat) (pm : Nat) (cs rest2 : List Nat),
      (∀ c ∈ cs, c &&& 0xC0 = 0x80) → cs.length < k → ¬(b1 &&& 0xC0 = 0x80) →
      utf8_continuations k (b0 &&& pm) (b0 :: (cs ++ b1 :: rest2)) 1
        = (INVALID_CODE, cs.length + 2) := by
    intro k pm cs rest2 hcs hlen hbad
    have hres := utf8_cont_bad cs.length k (b0 &&& pm) 1 (b0 :: (cs ++ b1 :: rest2))
      hlen
      (fun i hi => by
        have e : (1 : Nat) + i = i + 1 := by omega
        rw [e]
        simp only [List.getD_cons_succ]
        rw [List.getD_append _ _ _ i (by omega)]
        rw [List.getD_eq_getElem cs 0 (by omega)]
        exact hcs _ (List.getElem_mem (by omega)))
      (by simp [List.length_append]; omega)
      (by
        have e : (1 : Nat) + cs.length = cs.length + 1 := by omega
        rw [e]
        simp only [List.getD_cons_succ]
        rw [List.getD_append_right _ _ _ _ (le_refl cs.length)]
        simpa using hbad)
    rw [hres]
    have e : (1 : Nat) + cs.length + 1 = cs.length + 2 := by omega
    rw [e]
  refine ⟨?_, ?_, ?_, ?_, ?_, ?_, ?_, ?_, ?_, ?_, ?_, ?_, ?_, ?_, ?_, ?_, ?_, ?_, ?_⟩
  · intro h
    simp only [yip_decode_utf8, nb0, Int.toNat_natCast]
    rw [if_neg (natCast_not_lt_zero _), if_pos (ascii_and_80 h)]
  · intro h hc1
    rw [utf8_start2 b0 (b1 :: rest) h,
      utf8_cont_step 0 _ _ 1 (by simp only [List.length_cons]; omega)
        (by simpa using hc1)]
    simp only [utf8_continuations, List.getD_cons_succ, List.getD_cons_zero,
      shiftLeft6_lor_and63, Prod.mk.injEq, Nat.cast_inj] <;>
      exact ⟨by omega, trivial⟩
  · intro h hc1 hc2
    rw [utf8_start3 b0 (b1 :: b2 :: rest) h,
      utf8_cont_step 1 _ _ 1 (by simp only [List.length_cons]; omega)
        (by simpa using hc1),
      utf8_cont_step 0 _ _ 2 (by simp only [List.length_cons]; omega)
        (by simpa using hc2)]
    simp only [utf8_continuations, List.getD_cons_succ, List.getD_cons_zero,
      shiftLeft6_lor_and63, Prod.mk.injEq, Nat.cast_inj] <;>
      exact ⟨by omega, trivial⟩
  · intro h hc1 hc2 hc3
    rw [utf8_start4 b0 (b1 :: b2 :: b3 :: rest) h,
      utf8_cont_step 2 _ _ 1 (by simp only [List.length_cons]; omega)
        (by simpa using hc1),
      utf8_cont_step 1 _ _ 2 (by simp only [List.length_cons]; omega)
        (by simpa using hc2),
      utf8_cont_step 0 _ _ 3 (by simp only [List.length_cons]; omega)
        (by simpa using hc3)]
    simp only [utf8_continuations, List.getD_cons_succ, List.getD_cons_zero,
      shiftLeft6_lor_and63, Prod.mk.injEq, Nat.cast_inj] <;>
      exact ⟨by omega, trivial⟩
  · intro h hc1 hc2 hc3 hc4
    rw [utf8_start5 b0 (b1 :: b2 :: b3 :: b4 :: rest) h,
      utf8_cont_step 3 _ _ 1 (by simp only [List.length_cons]; omega)
        (by simpa using hc1),
      utf8_cont_step 2 _ _ 2 (by simp only [List.length_cons]; omega)
        (by simpa using hc2),
      utf8_cont_step 1 _ _ 3 (by simp only [List.length_cons]; omega)
        (by simpa using hc3),
      utf8_cont_step 0 _ _ 4 (by simp only [List.length_cons]; omega)
        (by simpa using hc4)]
    simp only [utf8_continuations, List.getD_cons_succ, List.getD_cons_zero,
      shiftLeft6_lor_and63, Prod.mk.injEq, Nat.cast_inj] <;>
      exact ⟨by omega, trivial⟩
  · intro h hc1 hc2 hc3 hc4 hc5
    rw [utf8_start6 b0 (b1 :: b2 :: b3 :: b4 :: b5 :: rest) h,
      utf8_cont_step 4 _ _ 1 (by simp only [List.length_cons]; omega)
        (by simpa using hc1),
      utf8_cont_step 3 _ _ 2 (by simp only [List.length_cons]; omega)
        (by simpa using hc2),
      utf8_cont_step 2 _ _ 3 (by simp only [List.length_cons]; omega)
        (by simpa using hc3),
      utf8_cont_step 1 _ _ 4 (by simp only [List.length_cons]; omega)
        (by simpa using hc4),
      utf8_cont_step 0 _ _ 5 (by simp only [List.length_cons]; omega)
        (by simpa using hc5)]
    simp only [utf8_continuations, List.getD_cons_succ, List.getD_cons_zero,
      shiftLeft6_lor_and63, Prod.mk.injEq, Nat.cast_inj] <;>
      exact ⟨by omega, trivial⟩
  · intro h
    have h80 : b0 &&& 0x80 = 0x80 := by rw [and_of_and_eq h 0x80 (by decide)]; decide
    simp only [yip_decode_utf8, nb0, Int.toNat_natCast]
    rw [if_neg (natCast_not_lt_zero _), if_neg (by omega),
      if_neg (show ¬(b0 &&& 0xE0 = 0xC0) by
        intro hc
        have h2 := and_of_and_eq hc 0xC0 (by decide)
        rw [h] at h2
        exact absurd h2 (by decide)),
      if_neg (show ¬(b0 &&& 0xF0 = 0xE0) by
        intro hc
        have h2 := and_of_and_eq hc 0xC0 (by decide)
        rw [h] at h2
        exact absurd h2 (by decide)),
      if_neg (show ¬(b0 &&& 0xF8 = 0xF0) by
        intro hc
        have h2 := and_of_and_eq hc 0xC0 (by decide)
        rw [h] at h2
        exact absurd h2 (by decide)),
      if_neg (show ¬(b0 &&& 0xFC = 0xF8) by
        intro hc
        have h2 := and_of_and_eq hc 0xC0 (by decide)
        rw [h] at h2
        exact absurd h2 (by decide)),
      if_neg (show ¬(b0 &&& 0xFE = 0xFC) by
        intro hc
        have h2 := and_of_and_eq hc 0xC0 (by decide)
        rw [h] at h2
        exact absurd h2 (by decide))]
  · simp only [yip_decode_utf8, nb0, Int.toNat_natCast]
    rw [if_neg (natCast_not_lt_zero _), if_neg (by decide), if_neg (by decide),
      if_neg (by decide), if_neg (by decide), if_neg (by decide), if_neg (by decide)]
  · simp only [yip_decode_utf8, nb0, Int.toNat_natCast]
    rw [if_neg (natCast_not_lt_zero _), if_neg (by decide), if_neg (by decide),
      if_neg (by decide), if_neg (by decide), if_neg (by decide), if_neg (by decide)]
  · intro h hcs hlen
    rw [utf8_start2 b0 cs h]
    exact htrunc 1 0x1F cs hcs hlen
  · intro h hcs hlen
    rw [utf8_start3 b0 cs h]
    exact htrunc 2 0xF cs hcs hlen
  · intro h hcs hlen
    rw [utf8_start4 b0 cs h]
    exact htrunc 3 0x7 cs hcs hlen
  · intro h hcs hlen
    rw [utf8_start5 b0 cs h]
    exact htrunc 4 0x3 cs hcs hlen
  · intro h hcs hlen
    rw [utf8_start6 b0 cs h]
    exact htrunc 5 0x1 cs hcs hlen
  · intro h hcs hlen hbad
    rw [utf8_start2 b0 (cs ++ b1 :: rest) h]
    exact hbadc 1 0x1F cs rest hcs hlen hbad
  · intro h hcs hlen hbad
    rw [utf8_start3 b0 (cs ++ b1 :: rest) h]
    exact hbadc 2 0xF cs rest hcs hlen hbad
  · intro h hcs hlen hbad
    rw [utf8_start4 b0 (cs ++ b1 :: rest) h]
    exact hbadc 3 0x7 cs rest hcs hlen hbad
  · intro h hcs hlen hbad
    rw [utf8_start5 b0 (cs ++ b1 :: rest) h]
    exact hbadc 4 0x3 cs rest hcs hlen hbad
  · intro h hcs hlen hbad
    rw [utf8_start6 b0 (cs ++ b1 :: rest) h]
    exact hbadc 5 0x1 cs rest hcs hlen hbad

/-- `next_byte` either leaves the cursor in place (at or past the end) or
advances it by exactly one position that was strictly inside the range. -/
theorem next_byte_cases {bytes : List Nat} {pos : Nat} {c : Int} {p : Nat}
    (h : next_byte bytes pos = (c, p)) :
    p = pos ∨ (p = pos + 1 ∧ pos < bytes.length) := by
  unfold next_byte at h
  split_ifs at h with hc
  · simp only [Prod.mk.injEq] at h
    exact Or.inl h.2.symm
  · simp only [Prod.mk.injEq] at h
    exact Or.inr ⟨h.2.symm, by omega⟩

/-- The continuation loop keeps the cursor between its starting position
and the end of the range. -/
theorem utf8_continuations_cursor (n : Nat) :
    ∀ (code pos : Nat) (bytes : List Nat) (rc : Int) (rp : Nat),
      pos ≤ bytes.length → utf8_continuations n code bytes pos = (rc, rp) →
      pos ≤ rp ∧ rp ≤ bytes.length := by
  induction n with
  | zero =>
    intro code pos bytes rc rp h hr
    simp only [utf8_continuations, Prod.mk.injEq] at hr
    omega
  | succ n ih =>
    intro code pos bytes rc rp h hr
    unfold utf8_continuations at hr
    simp only [] at hr
    split_ifs at hr with h1 h2 <;>
      first
        | (simp only [Prod.mk.injEq] at hr; omega)
        | (have hrec := ih _ (pos + 1) bytes rc rp (by omega) hr; omega)

/-- Cursor bounds for the UTF-8 decoder. -/
theorem yip_decode_utf8_cursor {bytes : List Nat} {pos : Nat} {rc : Int} {rp : Nat}
    (h : pos ≤ bytes.length) (hr : yip_decode_utf8 bytes pos = (rc, rp)) :
    pos ≤ rp ∧ rp ≤ bytes.length := by
  rcases e0 : next_byte bytes pos with ⟨c0, p0⟩
  have h0 := next_byte_cases e0
  unfold yip_decode_utf8 at hr
  simp only [e0] at hr
  split_ifs at hr <;>
    first
      | (simp only [Prod.mk.injEq] at hr; omega)
      | (have hb := utf8_continuations_cursor _ _ p0 bytes rc rp (by omega) hr; omega)

/-- Cursor bounds for the UTF-16LE decoder. -/
theorem yip_decode_utf16le_cursor {bytes : List Nat} {pos : Nat} {rc : Int} {rp : Nat}
    (h : pos ≤ bytes.length) (hr : yip_decode_utf16le bytes pos = (rc, rp)) :
    pos ≤ rp ∧ rp ≤ bytes.length := by
  rcases e0 : next_byte bytes pos with ⟨c0, p0⟩
  rcases e1 : next_byte bytes p0 with ⟨c1, p1⟩
  rcases e2 : next_byte bytes p1 with ⟨c2, p2⟩
  rcases e3 : next_byte bytes p2 with ⟨c3, p3⟩
  have h0 := next_byte_cases e0
  have h1 := next_byte_cases e1
  have h2 := next_byte_cases e2
  have h3 := next_byte_cases e3
  unfold yip_decode_utf16le at hr
  simp only [e0, e1, e2, e3] at hr
  split_ifs at hr <;> (simp only [Prod.mk.injEq] at hr; omega)

/-- Cursor bounds for the UTF-16BE decoder. -/
theorem yip_decode_utf16be_cursor {bytes : List Nat} {pos : Nat} {rc : Int} {rp : Nat}
    (h : pos ≤ bytes.length) (hr : yip_decode_utf16be bytes pos = (rc, rp)) :
    pos ≤ rp ∧ rp ≤ bytes.length := by
  rcases e0 : next_byte bytes pos with ⟨c0, p0⟩
  rcases e1 : next_byte bytes p0 with ⟨c1, p1⟩
  rcases e2 : next_byte bytes p1 with ⟨c2, p2⟩
  rcases e3 : next_byte bytes p2 with ⟨c3, p3⟩
  have h0 := next_byte_cases e0
  have h1 := next_byte_cases e1
  have h2 := next_byte_cases e2
  have h3 := next_byte_cases e3
  unfold yip_decode_utf16be at hr
  simp only [e0, e1, e2, e3] at hr
  split_ifs at hr <;> (simp only [Prod.mk.injEq] at hr; omega)

/-- Cursor bounds for the UTF-32LE decoder. -/
theorem yip_decode_utf32le_cursor {bytes : List Nat} {pos : Nat} {rc : Int} {rp : Nat}
    (h : pos ≤ bytes.length) (hr : yip_decode_utf32le bytes pos = (rc, rp)) :
    pos ≤ rp ∧ rp ≤ bytes.length := by
  rcases e0 : next_byte bytes pos with ⟨c0, p0⟩
  rcases e1 : next_byte bytes p0 with ⟨c1, p1⟩
  rcases e2 : next_byte bytes p1 with ⟨c2, p2⟩
  rcases e3 : next_byte bytes p2 with ⟨c3, p3⟩
  have h0 := next_byte_cases e0
  have h1 := next_byte_cases e1
  have h2 := next_byte_cases e2
  have h3 := next_byte_cases e3
  unfold yip_decode_utf32le at hr
  simp only [e0, e1, e2, e3] at hr
  split_ifs at hr <;> (simp only [Prod.mk.injEq] at hr; omega)

/-- Cursor bounds for the UTF-32BE decoder. -/
theorem yip_decode_utf32be_cursor {bytes : List Nat} {pos : Nat} {rc : Int} {rp : Nat}
    (h : pos ≤ bytes.length) (hr : yip_decode_utf32be bytes pos = (rc, rp)) :
    pos ≤ rp ∧ rp ≤ bytes.length := by
  rcases e0 : next_byte bytes pos with ⟨c0, p0⟩
  rcases e1 : next_byte bytes p0 with ⟨c1, p1⟩
  rcases e2 : next_byte bytes p1 with ⟨c2, p2⟩
  rcases e3 : next_byte bytes p2 with ⟨c3, p3⟩
  have h0 := next_byte_cases e0
  have h1 := next_byte_cases e1
  have h2 := next_byte_cases e2
  have h3 := next_byte_cases e3
  unfold yip_decode_utf32be at hr
  simp only [e0, e1, e2, e3] at hr
  split_ifs at hr <;> (simp only [Prod.mk.injEq] at hr; omega)

/-- C7: for every encoding, on a byte range whose cursor starts inside
the range (`pos ≤ bytes.length`, i.e. begin ≤ end), the decode functions
leave the cursor at a position never before the starting position and
never past the end of the range — also when they return `INVALID_CODE` —
so the caller can call decode again on the advanced cursor. -/
theorem c7_decode_cursor_bounds (encoding : YIP_ENCODING) (bytes : List Nat) (pos : Nat)
    (h : pos ≤ bytes.length) :
    pos ≤ (yip_decode encoding bytes pos).2 ∧
    (yip_decode encoding bytes pos).2 ≤ bytes.length := by
  cases encoding
  case utf8 =>
    simp only [yip_decode]
    rcases hr : yip_decode_utf8 bytes pos with ⟨rc, rp⟩
    exact yip_decode_utf8_cursor h hr
  case utf16le =>
    simp only [yip_decode]
    rcases hr : yip_decode_utf16le bytes pos with ⟨rc, rp⟩
    exact yip_decode_utf16le_cursor h hr
  case utf16be =>
    simp only [yip_decode]
    rcases hr : yip_decode_utf16be bytes pos with ⟨rc, rp⟩
    exact yip_decode_utf16be_cursor h hr
  case utf32le =>
    simp only [yip_decode]
    rcases hr : yip_decode_utf32le bytes pos with ⟨rc, rp⟩
    exact yip_decode_utf32le_cursor h hr
  case utf32be =>
    simp only [yip_decode]
    rcases hr : yip_decode_utf32be bytes pos with ⟨rc, rp⟩
    exact yip_decode_utf32be_cursor h hr

/-- Witness for C5: the surrogate pair D801 DC37 (little-endian bytes)
decodes to U+10437. -/
theorem c5_utf16_decoders_witness :
    yip_decode_utf16le [0x01, 0xD8, 0x37, 0xDC] 0 = (0x10437, 4) := by
  have h := (c5_utf16_decoders 0xD801 0xDC37 0 []).2.2.1 (by norm_num) (by norm_num)
    (by norm_num) (by norm_num)
  norm_num [Nat.shiftLeft_eq] at h
  exact h

/-- Witness for C6: the three-byte sequence E2 82 AC decodes to U+20AC. -/
theorem c6_utf8_decoder_witness :
    yip_decode_utf8 [0xE2, 0x82, 0xAC] 0 = (0x20AC, 3) := by
  have h := (c6_utf8_decoder 0xE2 0x82 0xAC 0 0 0 [] []).2.2.1 (by decide) (by decide)
    (by decide)
  norm_num at h
  exact h

/-- Witness for C7: decoding UTF-8 at the start of a two-byte range
leaves the cursor between 0 and 2. -/
theorem c7_decode_cursor_bounds_witness :
    0 ≤ (yip_decode .utf8 [0xC3, 0xA9] 0).2 ∧ (yip_decode .utf8 [0xC3, 0xA9] 0).2 ≤ 2 := by
  have h := c7_decode_cursor_bounds .utf8 [0xC3, 0xA9] 0 (by decide)
  simpa using h

/-- Reading the appended element of a snoc at the old length. -/
theorem getD_snoc_last {α : Type} (l : List α) (a d : α) :
    (l ++ [a]).getD l.length d = a := by
  rw [List.getD_append_right _ _ _ _ (le_refl l.length)]
  simp

/-- C2 (amended): when `end_token` closes a non-empty working token with
code BOM, the closed token's payload becomes the canonical name of the
token's (source) encoding with its first character removed — the token
code, the letter U, supplies that character in the YEAST rendering — and
its encoding is retagged to UTF-8.  The closed token sits at the
position the working token occupied. -/
theorem c2_end_token_bom (yip : YIP)
    (htok : yip.tokens ≠ [])
    (hpay : (topToken yip).payload ≠ [])
    (hcode : (topToken yip).code = YIP_BOM) :
    ((end_token yip YIP_BOM).1.tokens.getD (yip.tokens.length - 1) junk_token).payload
        = (stringBytes (encoding_names (topToken yip).encoding)).drop 1 ∧
    ((end_token yip YIP_BOM).1.tokens.getD (yip.tokens.length - 1) junk_token).encoding
        = YIP_ENCODING.utf8 := by
  have hlen : 1 ≤ yip.tokens.length := List.length_pos.mpr htok
  have hget1 : ∀ (t : YIP_TOKEN),
      (yip.tokens.dropLast ++ [t]).getD (yip.tokens.length - 1) junk_token = t := by
    intro t
    have h := getD_snoc_last yip.tokens.dropLast t junk_token
    rwa [List.length_dropLast] at h
  have hget2 : ∀ (t u : YIP_TOKEN),
      ((yip.tokens.dropLast ++ [t]) ++ [u]).getD (yip.tokens.length - 1) junk_token = t := by
    intro t u
    rw [List.getD_append _ _ _ _ (by
      simp only [List.length_append, List.length_dropLast, List.length_singleton]
      omega)]
    exact hget1 t
  have hpay2 : (yip.tokens.getLastD junk_token).payload ≠ [] := hpay
  unfold end_token
  by_cases hc : yip.codes.length = 1
  · rw [if_pos hc]
    dsimp only [setTopToken, topToken, Curr, topFrame, topCode]
    rw [if_neg hpay2, if_pos rfl]
    by_cases hf : yip.frames.length = 1
    · rw [if_pos hf]
      dsimp only
      rw [hget1]
      exact ⟨rfl, rfl⟩
    · rw [if_neg hf]
      dsimp only
      rw [hget2]
      exact ⟨rfl, rfl⟩
  · rw [if_neg hc]
    dsimp only [setTopToken, topToken, Curr, topFrame, topCode]
    rw [if_neg hpay2, if_pos rfl]
    by_cases hf : yip.frames.length = 1
    · rw [if_pos hf]
      dsimp only
      rw [hget1]
      exact ⟨rfl, rfl⟩
    · rw [if_neg hf]
      dsimp only
      rw [hget2]
      exact ⟨rfl, rfl⟩

/-- Reading the first appended element of a two-element snoc. -/
theorem getD_append2_at {α : Type} (l : List α) (a b d : α) :
    (l ++ [a, b]).getD ((l ++ [a, b]).length - 2) d = a := by
  have h : (l ++ [a, b]).length - 2 = l.length := by simp
  rw [h, List.getD_append_right _ _ _ _ (le_refl l.length)]
  simp

/-- The last element of a one-element truncation is the head. -/
theorem getLastD_take_one {α : Type} (l : List α) (d : α) :
    (l.take 1).getLastD d = l.headD d := by
  cases l <;> rfl

/-- `push_state` records the current stack depths in the frame that ends
up beneath the duplicated top frame. -/
theorem below_frame_push (yip : YIP) :
    below_frame (push_state yip)
      = { topFrame yip with
          tokens_depth := (yip.tokens.length : Int)
          codes_depth := (yip.codes.length : Int) } := by
  unfold below_frame push_state
  dsimp only
  exact getD_append2_at _ _ _ _

/-- Explicit form of the state after `reset_state`. -/
theorem reset_state_eq (yip : YIP) :
    reset_state yip
      = { codes := yip.codes.take (below_frame yip).codes_depth.toNat,
          tokens := (yip.tokens.take (below_frame yip).tokens_depth.toNat).dropLast
            ++ [{ (below_frame yip).curr.token with
                  payload := []
                  code := (yip.codes.take
                    (below_frame yip).codes_depth.toNat).getLastD NO_CODE }],
          frames := yip.frames.dropLast
            ++ [{ below_frame yip with tokens_depth := -1, codes_depth := -1 }],
          next_return_token := yip.next_return_token } := by
  unfold reset_state below_frame
  rfl

/-- C3 (amended): under `reset_state`'s preconditions (frame depth above
one, empty `UNPARSED` working token) and the stack invariants for the
snapshot depths, `push_state` snapshots the current depths in the frame
beneath, and `reset_state` restores the cursor from the frame beneath,
truncates the code and token stacks to the snapshotted depths, and
retags the working token with the code at the top of the truncated code
stack — which is the outermost `UNPARSED` when the snapshotted code
depth is one, but is the innermost open Begin code when a Begin code
other than the outermost `UNPARSED` was open at the time of the push. -/
theorem c3_reset_state (yip : YIP)
    (hpay : (topToken yip).payload = [])
    (hcode : (topToken yip).code = YIP_UNPARSED)
    (hfr : 1 < yip.frames.length)
    (hcd : 1 ≤ (below_frame yip).codes_depth)
    (hcd2 : (below_frame yip).codes_depth ≤ (yip.codes.length : Int))
    (htd : 1 ≤ (below_frame yip).tokens_depth)
    (htd2 : (below_frame yip).tokens_depth ≤ (yip.tokens.length : Int)) :
    (below_frame (push_state yip)).tokens_depth = (yip.tokens.length : Int) ∧
    (below_frame (push_state yip)).codes_depth = (yip.codes.length : Int) ∧
    (topFrame (reset_state yip)).curr = (below_frame yip).curr ∧
    (topFrame (reset_state yip)).prev = (below_frame yip).prev ∧
    (reset_state yip).codes = yip.codes.take (below_frame yip).codes_depth.toNat ∧
    ((reset_state yip).tokens.length : Int) = (below_frame yip).tokens_depth ∧
    topToken (reset_state yip)
      = { (below_frame yip).curr.token with
          payload := []
          code := (yip.codes.take (below_frame yip).codes_depth.toNat).getLastD NO_CODE } ∧
    ((below_frame yip).codes_depth = 1 → yip.codes.headD NO_CODE = YIP_UNPARSED →
      (topToken (reset_state yip)).code = YIP_UNPARSED) := by
  have h7 : topToken (reset_state yip)
      = { (below_frame yip).curr.token with
          payload := []
          code := (yip.codes.take (below_frame yip).codes_depth.toNat).getLastD NO_CODE } := by
    rw [reset_state_eq]
    unfold topToken
    dsimp only
    rw [List.getLastD_concat]
  refine ⟨?_, ?_, ?_, ?_, ?_, ?_, h7, ?_⟩
  · rw [below_frame_push]
  · rw [below_frame_push]
  · rw [reset_state_eq]
    unfold topFrame
    dsimp only
    rw [List.getLastD_concat]
  · rw [reset_state_eq]
    unfold topFrame
    dsimp only
    rw [List.getLastD_concat]
  · rw [reset_state_eq]
  · rw [reset_state_eq]
    dsimp only
    rw [List.length_append, List.length_dropLast, List.length_take]
    simp only [List.length_singleton]
    omega
  · intro hd1 hhead
    rw [h7]
    dsimp only
    rw [hd1]
    rw [show ((1 : Int)).toNat = 1 from rfl, getLastD_take_one]
    exact hhead

/-- C3 counterexample: starting from a state whose code stack holds an
open `BEGIN_SCALAR` above the outermost `UNPARSED`, pushing a frame and
resetting to it leaves the working token tagged `BEGIN_SCALAR`, not
`UNPARSED`, although `reset_state`'s preconditions hold. -/
theorem c3_reset_state_counterexample :
    (topToken (push_state c3_base)).payload = [] ∧
    (topToken (push_state c3_base)).code = YIP_UNPARSED ∧
    1 < (push_state c3_base).frames.length ∧
    (topToken (reset_state (push_state c3_base))).code = YIP_BEGIN_SCALAR ∧
    (topToken (reset_state (push_state c3_base))).code ≠ YIP_UNPARSED := by
  decide

/-- Witness for C3: on the concrete pushed state the truncations restore
both snapshotted depths. -/
theorem c3_reset_state_witness :
    (reset_state (push_state c3_base)).codes = [YIP_UNPARSED, YIP_BEGIN_SCALAR] ∧
    ((reset_state (push_state c3_base)).tokens.length : Int) = 1 := by
  have h := c3_reset_state (push_state c3_base) (by decide) (by decide) (by decide)
    (by decide) (by decide) (by decide) (by decide)
  refine ⟨?_, ?_⟩
  · rw [h.2.2.2.2.1]
    decide
  · rw [h.2.2.2.2.2.1]
    decide

/-- C2 counterexample: closing the BOM token of a UTF-8 source replaces
its payload with the bytes of "TF-8" — the canonical name with its first
character removed — which is not the canonical name "UTF-8" that the
claim requires. -/
theorem c2_end_token_bom_counterexample :
    ((end_token c2_state YIP_BOM).1.tokens.getD 0 junk_token).payload
        = stringBytes "TF-8" ∧
    ((end_token c2_state YIP_BOM).1.tokens.getD 0 junk_token).payload
        ≠ stringBytes (encoding_names YIP_ENCODING.utf8) := by
  decide

/-- Witness for C2: the amended statement evaluated on the concrete
UTF-8 BOM state. -/
theorem c2_end_token_bom_witness :
    ((end_token c2_state YIP_BOM).1.tokens.getD 0 junk_token).payload
        = (stringBytes (encoding_names YIP_ENCODING.utf8)).drop 1 ∧
    ((end_token c2_state YIP_BOM).1.tokens.getD 0 junk_token).encoding
        = YIP_ENCODING.utf8 := by
  have h := c2_end_token_bom c2_state (by decide) (by decide) (by decide)
  exact h

/-- C4 (amended): the `unexpected` message for the current character is
"Invalid byte sequence" for the invalid-sequence sentinel, "Unexpected
end of input" at end of input, a single-quoted rendering of the
character for printable ASCII other than the apostrophe, with hex
escape forms \xNN, \uNNNN and \UNNNNNNNN beyond — but the apostrophe
itself is special-cased and rendered in double quotes. -/
theorem c4_unexpected_message (c : Int) :
    (c = INVALID_CODE → unexpected_message c = "Invalid byte sequence") ∧
    (c = EOF_CODE → unexpected_message c = "Unexpected end of input") ∧
    (c = 39 → unexpected_message c = "Unexpected " ++ dquote ++ squote ++ dquote) ∧
    (32 ≤ c → c ≤ 126 → c ≠ 39 →
      unexpected_message c
        = "Unexpected " ++ squote ++ String.singleton (Char.ofNat c.toNat) ++ squote) ∧
    (0 ≤ c → c ≤ 255 → ¬(32 ≤ c ∧ c ≤ 126) →
      unexpected_message c
        = "Unexpected " ++ squote ++ "\\x" ++ pad_hex 2 c.toNat ++ squote) ∧
    (255 < c → c ≤ 65535 →
      unexpected_message c
        = "Unexpected " ++ squote ++ "\\u" ++ pad_hex 4 c.toNat ++ squote) ∧
    (65535 < c →
      unexpected_message c
        = "Unexpected " ++ squote ++ "\\U" ++ pad_hex 8 c.toNat ++ squote) := by
  refine ⟨?_, ?_, ?_, ?_, ?_, ?_, ?_⟩
  · intro h
    rw [h]
    rfl
  · intro h
    rw [h]
    rfl
  · intro h
    rw [h]
    rfl
  · intro h1 h2 h3
    unfold unexpected_message
    rw [if_neg (by unfold INVALID_CODE; omega), if_neg (by unfold EOF_CODE; omega),
      if_neg h3, if_pos ⟨h1, h2⟩]
  · intro h1 h2 h3
    unfold unexpected_message
    rw [if_neg (by unfold INVALID_CODE; omega), if_neg (by unfold EOF_CODE; omega),
      if_neg (by omega), if_neg h3, if_pos h2]
    have he : c % 4294967296 = c := Int.emod_eq_of_lt h1 (by omega)
    rw [he]
  · intro h1 h2
    unfold unexpected_message
    rw [if_neg (by unfold INVALID_CODE; omega), if_neg (by unfold EOF_CODE; omega),
      if_neg (by omega), if_neg (by omega), if_neg (by omega), if_pos h2]
  · intro h1
    unfold unexpected_message
    rw [if_neg (by unfold INVALID_CODE; omega), if_neg (by unfold EOF_CODE; omega),
      if_neg (by omega), if_neg (by omega), if_neg (by omega), if_neg (by omega)]

/-- C4 counterexample: for the apostrophe the message is the
double-quoted form, not the single-quoted rendering the claim states
for every printable ASCII character. -/
theorem c4_unexpected_message_counterexample :
    unexpected_message 39 = "Unexpected " ++ dquote ++ squote ++ dquote ∧
    unexpected_message 39 ≠ "Unexpected " ++ squote ++ squote ++ squote := by
  decide

/-- Witness for C4: the message for U+1F600. -/
theorem c4_unexpected_message_witness :
    unexpected_message 128512
      = "Unexpected " ++ squote ++ "\\U" ++ pad_hex 8 128512 ++ squote := by
  have h := (c4_unexpected_message 128512).2.2.2.2.2.2 (by norm_num)
  simpa using h

/-- C8: the memory byte source (shared by the buffer, string and mmap
variants).  `more` with a non-negative size returns 0 and changes
nothing; `less` with `0 ≤ n ≤ window size` drops `n` bytes from the
window front, advances `byte_offset` by `n` and returns `n`; a negative
size, a null source, or (for `less`) a size beyond the window all return
a negative value with `errno = EINVAL`. -/
theorem c8_memory_source (s : YIP_SOURCE_MEM) (n : Int) :
    (0 ≤ n → buffer_more (some s) n = ⟨0, some s, false⟩) ∧
    (0 ≤ n → n ≤ (s.window.length : Int) →
      buffer_less (some s) n
        = ⟨n, some { window := s.window.drop n.toNat, byte_offset := s.byte_offset + n },
            false⟩) ∧
    (n < 0 → (buffer_more (some s) n).ret < 0 ∧ (buffer_more (some s) n).einval = true) ∧
    (n < 0 → (buffer_less (some s) n).ret < 0 ∧ (buffer_less (some s) n).einval = true) ∧
    ((buffer_more none n).ret < 0 ∧ (buffer_more none n).einval = true) ∧
    ((buffer_less none n).ret < 0 ∧ (buffer_less none n).einval = true) ∧
    ((s.window.length : Int) < n →
      (buffer_less (some s) n).ret < 0 ∧ (buffer_less (some s) n).einval = true) := by
  refine ⟨?_, ?_, ?_, ?_, ?_, ?_, ?_⟩
  · intro h
    unfold buffer_more
    dsimp only
    rw [if_neg (by omega)]
  · intro h1 h2
    unfold buffer_less
    dsimp only
    rw [if_neg (by omega), if_neg (by omega)]
  · intro h
    unfold buffer_more
    dsimp only
    rw [if_pos h]
    exact ⟨show (-1 : Int) < 0 by norm_num, rfl⟩
  · intro h
    unfold buffer_less
    dsimp only
    rw [if_pos h]
    exact ⟨show (-1 : Int) < 0 by norm_num, rfl⟩
  · exact ⟨show (-1 : Int) < 0 by norm_num, rfl⟩
  · exact ⟨show (-1 : Int) < 0 by norm_num, rfl⟩
  · intro h
    unfold buffer_less
    dsimp only
    rw [if_neg (by omega), if_pos h]
    exact ⟨show (-1 : Int) < 0 by norm_num, rfl⟩

/-- Witness for C8 on a concrete three-byte window. -/
theorem c8_memory_source_witness :
    buffer_more (some ⟨[1, 2, 3], 5⟩) 2 = ⟨0, some ⟨[1, 2, 3], 5⟩, false⟩ ∧
    buffer_less (some ⟨[1, 2, 3], 5⟩) 2 = ⟨2, some ⟨[3], 7⟩, false⟩ := by
  have h := c8_memory_source ⟨[1, 2, 3], 5⟩ 2
  refine ⟨h.1 (by decide), ?_⟩
  rw [h.2.1 (by decide) (by decide)]
  decide

/-- C9: a successful `dynamic_less` advances `byte_offset`, leaves the
remaining window equal to the old window with its first `n` bytes
removed, and copies the remaining data down to the physical buffer base
exactly when the freed front gap (`begin − base` after the advance) is
at least the data remaining — a condition under which the `memcpy`
source and destination ranges cannot overlap. -/
theorem c9_dynamic_less (s : DYNAMIC_SOURCE) (n : Nat)
    (hinv : s.gap + s.len ≤ s.phys.length)
    (hn : n ≤ s.len) :
    (dynamic_less (some s) (n : Int)).ret = (n : Int) ∧
    (dynamic_less (some s) (n : Int)).einval = false ∧
    ∃ s2, (dynamic_less (some s) (n : Int)).src = some s2 ∧
      s2.byte_offset = s.byte_offset + (n : Int) ∧
      s2.len = s.len - n ∧
      dyn_window s2 = (dyn_window s).drop n ∧
      (s.len - n ≤ s.gap + n →
        s2.gap = 0 ∧ s2.phys.take (s.len - n) = (dyn_window s).drop n) ∧
      (¬(s.len - n ≤ s.gap + n) → s2.gap = s.gap + n ∧ s2.phys = s.phys) ∧
      (s.len - n ≤ s.gap + n → ∀ i j, i < s.len - n → s.gap + n ≤ j → i < j) := by
  have hwin : (dyn_window s).drop n = (s.phys.drop (s.gap + n)).take (s.len - n) := by
    unfold dyn_window
    rw [List.drop_take, List.drop_drop]
  have hmoved : ((s.phys.drop (s.gap + n)).take (s.len - n)).length = s.len - n := by
    rw [List.length_take, List.length_drop]
    omega
  unfold dynamic_less
  dsimp only
  rw [if_neg (by omega), if_neg (by omega)]
  simp only [Int.toNat_natCast]
  by_cases hc : s.len - n ≤ s.gap + n
  · rw [if_pos hc]
    refine ⟨rfl, rfl, _, rfl, rfl, rfl, ?_, ?_, ?_, ?_⟩
    · rw [hwin]
      unfold dyn_window
      dsimp only
      rw [List.drop_zero, List.take_append_eq_append_take,
        List.take_of_length_le (le_of_eq hmoved), hmoved, Nat.sub_self, List.take_zero,
        List.append_nil]
    · intro _
      refine ⟨rfl, ?_⟩
      rw [hwin]
      dsimp only
      rw [List.take_append_eq_append_take, List.take_of_length_le (le_of_eq hmoved),
        hmoved, Nat.sub_self, List.take_zero, List.append_nil]
    · intro hcon
      exact absurd hc hcon
    · intro _ i j hi hj
      omega
  · rw [if_neg hc]
    refine ⟨rfl, rfl, _, rfl, rfl, rfl, ?_, ?_, ?_, ?_⟩
    · rw [hwin]
      unfold dyn_window
      dsimp only
    · intro hcon
      exact absurd hcon hc
    · intro _
      exact ⟨rfl, rfl⟩
    · intro hcon
      exact absurd hcon hc

/-- Witness for C9: releasing two bytes from a five-byte window with a
one-byte front gap triggers compaction. -/
theorem c9_dynamic_less_witness :
    (dynamic_less (some ⟨[9, 1, 2, 3, 4, 5], 1, 5, 10⟩) 2).ret = 2 ∧
    ∃ s2, (dynamic_less (some ⟨[9, 1, 2, 3, 4, 5], 1, 5, 10⟩) 2).src = some s2 ∧
      dyn_window s2 = [3, 4, 5] := by
  have h := c9_dynamic_less ⟨[9, 1, 2, 3, 4, 5], 1, 5, 10⟩ 2 (by decide) (by decide)
  obtain ⟨h1, _, s2, hsrc, _, _, hwin, _⟩ := h
  refine ⟨h1, s2, hsrc, ?_⟩
  rw [hwin]
  decide

/-- `next_token` on a DONE token hands back the token without touching
the state, and the index then points at that very token. -/
theorem next_token_done {yip : YIP} {t : YIP_TOKEN} {yip2 : YIP}
    (h : next_token yip = some (t, yip2)) (hd : t.code = YIP_DONE) :
    yip2 = yip ∧ 0 ≤ yip2.next_return_token ∧
    yip2.next_return_token < (yip2.tokens.length : Int) ∧
    yip2.tokens.getD yip2.next_return_token.toNat junk_token = t := by
  unfold next_token at h
  dsimp only at h
  split_ifs at h with h1 h2
  · simp only [Option.some.injEq, Prod.mk.injEq] at h
    obtain ⟨ht, hy⟩ := h
    subst hy
    exact ⟨rfl, h1.1, h1.2, ht⟩
  · simp only [Option.some.injEq, Prod.mk.injEq] at h
    rw [← h.1] at hd
    exact absurd hd h2

/-- C10: once `yip_next_token` returns a DONE token, the parser state is
a fixed point — every subsequent call returns the same DONE token and
the same state, because delivering DONE does not advance
`Next_return_token`. -/
theorem c10_done_token_idempotent (machine : YIP → RETURN × YIP) (yip : YIP)
    (t : YIP_TOKEN) (yip2 : YIP)
    (h : yip_next_token machine yip = some (t, yip2)) (hd : t.code = YIP_DONE) :
    yip_next_token machine yip2 = some (t, yip2) ∧
    (∀ k, tokens_from machine yip2 k = some (t, yip2)) := by
  have hex : ∃ s1, next_token s1 = some (t, yip2) := by
    unfold yip_next_token at h
    split_ifs at h with h1 h2
    · unfold machine_step at h
      rcases hm : machine (last_token yip) with ⟨r, y⟩
      rw [hm] at h
      cases r
      · exact absurd h (by simp)
      · exact absurd h (by simp)
      · exact ⟨y, h⟩
    · exact ⟨yip, h⟩
    · unfold machine_step at h
      rcases hm : machine yip with ⟨r, y⟩
      rw [hm] at h
      cases r
      · exact absurd h (by simp)
      · exact absurd h (by simp)
      · exact ⟨y, h⟩
  obtain ⟨s1, hnt⟩ := hex
  obtain ⟨heq, hge, hlt, hget⟩ := next_token_done hnt hd
  have hfix : yip_next_token machine yip2 = some (t, yip2) := by
    unfold yip_next_token
    rw [if_neg (by omega), if_pos hge]
    unfold next_token
    rw [if_pos ⟨hge, hlt⟩]
    dsimp only
    rw [hget, if_pos hd]
  refine ⟨hfix, ?_⟩
  intro k
  induction k with
  | zero => exact hfix
  | succ k ih =>
    unfold tokens_from
    rw [hfix]
    exact ih

/-- Witness for C10 on a concrete parser state whose staged token is
DONE: three further calls all return the same token and state. -/
theorem c10_done_token_idempotent_witness :
    yip_next_token c10_machine c10_state = some (c10_done_token, c10_state) ∧
    tokens_from c10_machine c10_state 3 = some (c10_done_token, c10_state) := by
  have h0 : yip_next_token c10_machine c10_state = some (c10_done_token, c10_state) := by
    decide
  have h := c10_done_token_idempotent c10_machine c10_state c10_done_token c10_state h0
    (by decide)
  exact ⟨h.1, h.2 3⟩

end Yip
